import Mathlib

/-!
# Verification of the Florrtest game backend core

Shallow embedding of the authoritative simulation core of `src/index.js`:
entity data model, inventory/equip/pickup operations, per-tick combat
resolution, and the mob spawn/despawn lifecycle.  JavaScript numbers used
for coordinates are modelled by `ℚ`, integer damage/health values by `ℤ`,
timestamps by `ℕ`.  The JS test `d < r` on a Euclidean distance is embedded
as `d² < r²` (equivalent for the nonnegative radii this code uses), which
keeps every predicate decidable.  A JS field that a given code path may
leave `undefined` is modelled by an `Option`.
-/

/-- Rarity tier list, in zone order (src/index.js line 211). -/
def rarityZones : List String :=
  ["common", "unusual", "rare", "epic", "legendary", "mythic", "ultra"]

/-- The lookup `rarityMultipliers[r] || 1` (lines 102-110).  The `|| 1` fallback is the
one used by `createBonePetal`; mob spawning indexes the table with a rarity
drawn from `rarityZones`, where the lookup always succeeds, so carrying the
fallback in the single total function is faithful on every reachable input. -/
def rarityMultiplier (r : String) : Int :=
  if r = "common" then 1
  else if r = "unusual" then 3
  else if r = "rare" then 9
  else if r = "epic" then 27
  else if r = "legendary" then 81
  else if r = "mythic" then 243
  else if r = "ultra" then 729
  else 1

/-- The single designated elevated username (line 113). -/
def ADMIN_USERNAME : String := "CharmedZ"

/-- An item's combat stats (the non-positional fields of the flat JS item
objects produced by `createBonePetal`, `spawnItem` and the starter-petal
literals).  `radius` is `none` when the JS object has no `radius` field
(hotbar petals from `createBonePetal` and the starter loadout). -/
structure Item where
  name : String
  color : String
  damage : Int
  health : Int
  maxHealth : Int
  reload : Nat
  reloadUntil : Nat
  rarity : String
  radius : Option ℚ := none
deriving DecidableEq, Repr

/-- The factory `createBonePetal(rarity)` (lines 116-130).  The `description` string is
omitted: no logic reads it. -/
def createBonePetal (rarity : String) : Item :=
  let mult := rarityMultiplier rarity
  { name := "Bone"
    color := "gray"
    damage := 30 * mult
    health := 75 * mult
    maxHealth := 75 * mult
    reload := 3000
    reloadUntil := 0
    rarity := rarity }

/-- A world-dropped item.  In JS this is one flat object `{id,x,y,radius,…}`;
here the stat fields are grouped in `item` and the positional fields kept
alongside — pickup matching reads `item.name`/`item.rarity`, which are the
flat `name`/`rarity` fields of the JS object. -/
structure WorldItem where
  id : String
  x : ℚ
  y : ℚ
  radius : ℚ
  item : Item
deriving DecidableEq, Repr

/-- An inventory slot's stack: `{ item, count }`. -/
structure Slot where
  item : Item
  count : Nat
deriving DecidableEq, Repr

/-- The player fields the core touches (from `createPendingPlayer`,
lines 259-282, plus `isAdmin` which only `set_username` ever sets; a player
that never passed the admin branch has the field `undefined`, i.e. `false`).
`orbitDist` is `Option ℚ`: `orbit_control` stores whatever the client sent,
so the field can hold `null`/`undefined` (`none`) or any number. -/
structure Player where
  id : String
  x : ℚ
  y : ℚ
  radius : ℚ
  speed : ℚ
  health : Int
  maxHealth : Int
  invincibleUntil : Nat
  isAdmin : Bool
  orbitDist : Option ℚ
  inventory : List (Option Slot)
  hotbar : List (Option Item)
deriving DecidableEq, Repr

/-- A mob (`spawnMob`, lines 226-256).  `damageDealers` and `spawnTime` are
`Option` because `spawnMob` sets neither field; the outer tick creates
`damageDealers` on first hit. -/
structure Mob where
  id : String
  x : ℚ
  y : ℚ
  radius : ℚ
  damage : Int
  health : Int
  maxHealth : Int
  rarity : String
  color : String
  targetId : Option String
  type : String
  damageDealers : Option (List String)
  spawnTime : Option Nat
deriving DecidableEq, Repr

/-- World bounds (lines 179-184). -/
def worldWidth : ℚ := 8000
/-- World height (lines 179-184). -/
def worldHeight : ℚ := 4000
/-- The zone width `world.width / rarityZones.length` (line 212). -/
def zoneWidth : ℚ := worldWidth / 7
/-- The per-zone mob cap `maxMobsPerZone` (line 213). -/
def maxMobsPerZone : Nat := 15

/-- Squared Euclidean distance; `distance(ax,ay,bx,by) < r` in the source is
embedded as `dist2 … < r^2`. -/
def dist2 (ax ay bx by_ : ℚ) : ℚ :=
  (ax - bx) ^ 2 + (ay - by_) ^ 2

/-- The collision radius `item.radius || 8` (lines 556, 578): default 8
when the field is absent or `0`. -/
def itemRadius (it : Item) : ℚ :=
  match it.radius with
  | none => 8
  | some r => if r = 0 then 8 else r

/-- The collision test `distance(petalX, petalY, tx, ty) < tradius + (item.radius || 8)`. -/
def hitCheck (px py tx ty tradius : ℚ) (it : Item) : Bool :=
  dist2 px py tx ty < (tradius + itemRadius it) ^ 2

/-! ## Inventory operations -/

/-- The stacking predicate of the source,
`slot && slot.item.name === it.name && slot.item.rarity === it.rarity`
(pickup lines 433-435, unequip lines 480-482), against an item `it`. -/
def matchesStack (it : Item) (s : Option Slot) : Bool :=
  match s with
  | none => false
  | some sl => sl.item.name = it.name && sl.item.rarity = it.rarity

/-- The pattern `inventory.find(slot => slot && name/rarity match)` followed by
`existing.count += 1`: increments the first stack matching `it`.
Returns `none` when no stack matches (`find` returned `undefined`). -/
def incFirstMatch (it : Item) : List (Option Slot) → Option (List (Option Slot))
  | [] => none
  | s :: rest =>
    if matchesStack it s then
      match s with
      | some sl => some (some { sl with count := sl.count + 1 } :: rest)
      | none => none
    else
      (incFirstMatch it rest).map (s :: ·)

/-- The pattern `inventory.findIndex(s => s === null)` followed by
`inventory[emptyIdx] = { item, count: 1 }`: fills the first empty slot.
Returns `none` when `findIndex` returned `-1` (no empty slot). -/
def fillFirstEmpty (it : Item) : List (Option Slot) → Option (List (Option Slot))
  | [] => none
  | none :: rest => some (some { item := it, count := 1 } :: rest)
  | some sl :: rest => (fillFirstEmpty it rest).map (some sl :: ·)

/-- Specification-side predicate: some slot stacks with `it`. -/
def hasMatch (it : Item) (inv : List (Option Slot)) : Bool :=
  inv.any (matchesStack it)

/-- Specification-side predicate: some slot is empty. -/
def hasEmpty (inv : List (Option Slot)) : Bool :=
  inv.any (fun s => s = none)

/-- Specification-side index of the first stack matching `it`. -/
def firstMatchIdx (it : Item) : List (Option Slot) → Option Nat
  | [] => none
  | s :: rest =>
    if matchesStack it s then some 0 else (firstMatchIdx it rest).map (· + 1)

/-- Specification-side index of the first empty slot. -/
def firstEmptyIdx : List (Option Slot) → Option Nat
  | [] => none
  | none :: _ => some 0
  | some _ :: rest => (firstEmptyIdx rest).map (· + 1)

/-- How many units of the `(n, r)` name+rarity pair an inventory slot holds. -/
def slotCount (n r : String) (s : Option Slot) : Nat :=
  match s with
  | none => 0
  | some sl => if sl.item.name = n ∧ sl.item.rarity = r then sl.count else 0

/-- Total units of the `(n, r)` pair across the inventory. -/
def invCount (n r : String) (inv : List (Option Slot)) : Nat :=
  (inv.map (slotCount n r)).sum

/-- How many units of the `(n, r)` pair a hotbar cell holds (0 or 1). -/
def cellCount (n r : String) (c : Option Item) : Nat :=
  match c with
  | none => 0
  | some it => if it.name = n ∧ it.rarity = r then 1 else 0

/-- Total units of the `(n, r)` pair across the hotbar. -/
def hotCount (n r : String) (hb : List (Option Item)) : Nat :=
  (hb.map (cellCount n r)).sum

/-- The range test `d < p.radius + it.radius` of the pickup handler (line 432), embedded as
the equivalent squared comparison. -/
def withinPickup (p : Player) (w : WorldItem) : Bool :=
  dist2 p.x p.y w.x w.y < (p.radius + w.radius) ^ 2

/-- Result of a pickup: the player's new inventory, and whether
`items.delete(itemId)` ran (the world item vanished). -/
structure PickupResult where
  inv : List (Option Slot)
  itemRemoved : Bool
deriving DecidableEq, Repr

/-- The `pickup_request` handler body for a spawned player and an existing
world item (lines 427-450).  Note the source's `items.delete(itemId)` sits
*outside* the `emptyIdx !== -1` test: once the distance check passes, the
world item is deleted whether or not the inventory had room. -/
def pickup (p : Player) (w : WorldItem) : PickupResult :=
  if withinPickup p w then
    match incFirstMatch w.item p.inventory with
    | some inv2 => { inv := inv2, itemRemoved := true }
    | none =>
      match fillFirstEmpty w.item p.inventory with
      | some inv2 => { inv := inv2, itemRemoved := true }
      | none => { inv := p.inventory, itemRemoved := true }
  else
    { inv := p.inventory, itemRemoved := false }

/-- JS array indexing `arr[i]` on a slot array: the stored element, or
`none` both for a stored `null` and for an out-of-range (`undefined`)
index — the two falsy cases the handlers guard on. -/
def jsIndex {α : Type} : List (Option α) → Nat → Option α
  | [], _ => none
  | x :: _, 0 => x
  | _ :: rest, i + 1 => jsIndex rest i

/-- The `equip_request` handler body (lines 453-470).  `inventory[invIndex]`
on an out-of-range index is `undefined` in JS, hence falsy, hence the early
return — `jsIndex` models both that and a stored `null`. -/
def equip (inv : List (Option Slot)) (hb : List (Option Item))
    (invIndex hotbarIndex : Nat) : List (Option Slot) × List (Option Item) :=
  match jsIndex inv invIndex with
  | none => (inv, hb)
  | some sl =>
    if sl.count > 1 then
      (inv.set invIndex (some { sl with count := sl.count - 1 }),
       hb.set hotbarIndex (some sl.item))
    else
      (inv.set invIndex none, hb.set hotbarIndex (some sl.item))

/-- The `unequip_request` handler body (lines 473-498): stack back into a
matching slot, else the first empty slot, else `return` with the hotbar
untouched; on success the hotbar cell is cleared. -/
def unequip (inv : List (Option Slot)) (hb : List (Option Item))
    (hotbarIndex : Nat) : List (Option Slot) × List (Option Item) :=
  match jsIndex hb hotbarIndex with
  | none => (inv, hb)
  | some it =>
    match incFirstMatch it inv with
    | some inv2 => (inv2, hb.set hotbarIndex none)
    | none =>
      match fillFirstEmpty it inv with
      | some inv2 => (inv2, hb.set hotbarIndex none)
      | none => (inv, hb)

/-! ## Combat resolution (outer tick, lines 524-625) -/

/-- Lines 553-572: one equipped item of attacker `atk` at computed petal
position `(px, py)` resolved against one other player.  Skips self and dead
targets, runs the collision test, honours the invincibility window
(`other.invincibleUntil && now < other.invincibleUntil`), applies the
admin-scaled damage (`dmg` and `hpLoss` are the same expression in the
source), floors the victim at 0, and runs the durability/reload rule.
Returns the updated `(victim, striking item)`. -/
def strikePlayer (now : Nat) (atk : Player) (item : Item) (px py : ℚ)
    (other : Player) : Player × Item :=
  if other.id = atk.id ∨ other.health ≤ 0 then (other, item)
  else if hitCheck px py other.x other.y other.radius item then
    if other.invincibleUntil ≠ 0 ∧ now < other.invincibleUntil then (other, item)
    else
      let dmg := if atk.isAdmin then item.damage * 2 else item.damage
      let h := other.health - dmg
      let other2 := { other with health := if h ≤ 0 then 0 else h }
      let item2 := { item with health := item.health - dmg }
      let item3 :=
        if item2.health ≤ 0 then
          { item2 with reloadUntil := now + item.reload, health := item.maxHealth }
        else item2
      (other2, item3)
  else (other, item)

/-- The same strike at the level of a hotbar cell: the tick mutates the item
object in place and no path ever writes the hotbar cell, so an occupied cell
stays occupied. -/
def strikeCell (now : Nat) (atk : Player) (cell : Option Item) (px py : ℚ)
    (other : Player) : Player × Option Item :=
  match cell with
  | none => (other, none)
  | some it =>
    let r := strikePlayer now atk it px py other
    (r.1, some r.2)

/-- The insertion `m.damageDealers.add(p.id)` after the `if (!m.damageDealers)` guard
(lines 582-583): a JS `Set` insertion, on a possibly absent set. -/
def addDealer (pid : String) (dd : Option (List String)) : List String :=
  let l := dd.getD []
  if pid ∈ l then l else l ++ [pid]

/-- Outcome of resolving one equipped item against one mob. -/
structure MobHitResult where
  mob : Option Mob
  item : Item
  drop : Option WorldItem
  notified : List String
deriving DecidableEq, Repr

/-- Lines 575-620: one equipped item of player `pid` (admin flag `isAdmin`)
at petal position `(px, py)` against one mob.  On a hit: damage the mob,
record the attacker in the (created-if-absent) damage-dealer set, apply the
asymmetric durability loss (`m.damage`, doubled for admins) with the
reload rule, and on death delete the mob, create exactly one Bone drop
(`dropId` stands for the random id), and notify every recorded damage
dealer that is still a connected player (`players.get(pid)` succeeds; every
stored player carries its socket). -/
def hitMob (now : Nat) (pid : String) (isAdmin : Bool) (item : Item)
    (px py : ℚ) (m : Mob) (players : List String) (dropId : String) :
    MobHitResult :=
  if m.health ≤ 0 then { mob := some m, item := item, drop := none, notified := [] }
  else if hitCheck px py m.x m.y m.radius item then
    let dmg := if isAdmin then item.damage * 2 else item.damage
    let mh := m.health - dmg
    let dealers := addDealer pid m.damageDealers
    let item2 := { item with health := item.health - (if isAdmin then m.damage * 2 else m.damage) }
    let item3 :=
      if item2.health ≤ 0 then
        { item2 with reloadUntil := now + item.reload, health := item.maxHealth }
      else item2
    if mh ≤ 0 then
      if m.type = "beetle" then
        let drop : WorldItem :=
          { id := dropId, x := m.x, y := m.y, radius := 16, item := createBonePetal m.rarity }
        { mob := none, item := item3, drop := some drop,
          notified := dealers.filter (fun q => players.contains q) }
      else
        { mob := none, item := item3, drop := none, notified := [] }
    else
      { mob := some { m with health := mh, damageDealers := some dealers },
        item := item3, drop := none, notified := [] }
  else { mob := some m, item := item, drop := none, notified := [] }

/-- The mob AI pass of the tick (lines 696-698) is an empty loop — mobs
never move and never damage players. -/
def mobAIPass (ps : List Player) (ms : List Mob) : List Player × List Mob :=
  (ps, ms)

/-! ## The nested inner tick (lines 627-719)

The outer `setInterval` callback registers a second `setInterval` whose
mob-hit block (lines 654-687) reads the identifier `dmg` — but no enclosing
scope of that callback binds `dmg` (the outer tick's `const dmg` at line 549
lives inside a sibling `equipped.forEach` callback), and it calls
`m.damageDealers.add(...)` without the `if (!m.damageDealers)` guard.  The
embedding threads the value bound to `dmg` explicitly (`none` = unbound,
the real environment) and keeps `damageDealers` as the optional field it is
on a freshly spawned mob. -/

/-- A thrown JS exception. -/
inductive JsError where
  | referenceError
  | typeError
deriving DecidableEq, Repr

/-- The inner nested tick's per-mob hit block (lines 654-687).
`dmgBinding` is the value the identifier `dmg` resolves to; in the source
no binding exists, so the block throws `ReferenceError` at `m.health -= dmg`
(line 658) on any in-range hit, and even given a binding it throws
`TypeError` at `m.damageDealers.add(p.id)` (line 659) when the mob's
damage-dealer set was never created. -/
def innerTickMobHit (now : Nat) (dmgBinding : Option Int) (pid : String)
    (isAdmin : Bool) (item : Item) (px py : ℚ) (m : Mob)
    (players : List String) (dropId : String) : Except JsError MobHitResult :=
  if m.health ≤ 0 then
    .ok { mob := some m, item := item, drop := none, notified := [] }
  else if hitCheck px py m.x m.y m.radius item then
    match dmgBinding with
    | none => .error .referenceError
    | some dmg =>
      match m.damageDealers with
      | none => .error .typeError
      | some dealers0 =>
        let mh := m.health - dmg
        let dealers := if pid ∈ dealers0 then dealers0 else dealers0 ++ [pid]
        let item2 := { item with health := item.health - (if isAdmin then m.damage * 2 else m.damage) }
        let item3 :=
          if item2.health ≤ 0 then
            { item2 with reloadUntil := now + item.reload, health := item.maxHealth }
          else item2
        if mh ≤ 0 then
          if m.type = "beetle" then
            let drop : WorldItem :=
              { id := dropId, x := m.x, y := m.y, radius := 16, item := createBonePetal m.rarity }
            .ok { mob := none, item := item3, drop := some drop,
                  notified := dealers.filter (fun q => players.contains q) }
          else
            .ok { mob := none, item := item3, drop := none, notified := [] }
        else
          .ok { mob := some { m with health := mh, damageDealers := some dealers },
                item := item3, drop := none, notified := [] }
  else .ok { mob := some m, item := item, drop := none, notified := [] }

/-! ## Mob lifecycle -/

/-- The zone formula `Math.floor(m.x / zoneWidth)` placing a mob's x-coordinate
(`countMobsInZone`, line 221). -/
def mobZone (m : Mob) : Int :=
  ⌊m.x / zoneWidth⌋

/-- The census `countMobsInZone(zoneIndex)` (lines 218-225), over a list snapshot of
the mob store. -/
def countMobsInZone (zoneIndex : Int) (ms : List Mob) : Nat :=
  (ms.filter (fun m => mobZone m = zoneIndex)).length

/-- The spawner `spawnMob(x, y)` (lines 226-256).  Clamps the coordinates into the
world, derives rarity/stats from the zone index, and — decisive for the
despawn and crash claims — sets neither `spawnTime` nor `damageDealers`.
`id` stands for the random id. -/
def spawnMob (x y : ℚ) (id : String) : Mob :=
  let xc := max 0 (min worldWidth x)
  let yc := max 0 (min worldHeight y)
  let zoneIndex := max 0 (min (7 - 1) ⌊xc / zoneWidth⌋)
  let rarity := (rarityZones.getD zoneIndex.toNat "common")
  let mult := rarityMultiplier rarity
  { id := id
    x := xc
    y := yc
    radius := 40 * (1 + 1 * zoneIndex)
    damage := 25 * mult
    health := 100 * mult
    maxHealth := 100 * mult
    rarity := rarity
    color := "purple"
    targetId := none
    type := "beetle"
    damageDealers := none
    spawnTime := none }

/-- One iteration of the spawn loop (lines 701-707) for zone `zi`, with the
two `Math.random()` draws `rx, ry` passed in. -/
def spawnPassStep (ms : List Mob) (zi : Nat) (rx ry : ℚ) (id : String) :
    List Mob :=
  if countMobsInZone zi ms < maxMobsPerZone then
    ms ++ [spawnMob (zi * zoneWidth + rx * zoneWidth) (ry * worldHeight) id]
  else ms

/-- The spawn loop over a list of zone indices. -/
def spawnPassAux (rnd : Nat → ℚ × ℚ) (ids : Nat → String) :
    List Nat → List Mob → List Mob
  | [], ms => ms
  | zi :: rest, ms =>
    spawnPassAux rnd ids rest (spawnPassStep ms zi (rnd zi).1 (rnd zi).2 (ids zi))

/-- The whole per-tick mob spawn pass:
`for (let zoneIndex = 0; zoneIndex < rarityZones.length; zoneIndex++) …`. -/
def spawnPass (ms : List Mob) (rnd : Nat → ℚ × ℚ) (ids : Nat → String) :
    List Mob :=
  spawnPassAux rnd ids (List.range 7) ms

/-- The despawn test `Date.now() - m.spawnTime > 60000` (line 711).  On a
mob whose `spawnTime` was never set, the JS subtraction yields `NaN` and
`NaN > 60000` is `false`. -/
def despawnCheck (now : Nat) (m : Mob) : Bool :=
  match m.spawnTime with
  | none => false
  | some t => (60000 : Int) < (now : Int) - (t : Int)

/-- The despawn pass (lines 710-715): delete every mob the check fires on. -/
def despawnPass (now : Nat) (ms : List Mob) : List Mob :=
  ms.filter (fun m => ¬ despawnCheck now m)

/-! ## Orbit control and the petal position -/

/-- The `orbit_control` handler (lines 419-424): stores the client-supplied
value on the player unvalidated. -/
def orbitControl (p : Player) (v : Option ℚ) : Player :=
  { p with orbitDist := v }

/-- JS truthiness of the stored `orbitDist`: falsy when absent or zero. -/
def orbitDistFalsy (v : Option ℚ) : Bool :=
  match v with
  | none => true
  | some q => q = 0

/-- The fallback `p.orbitDist || 56` (lines 545-546): the orbit radius actually used by
the tick's petal position computation. -/
def effOrbitDist (p : Player) : ℚ :=
  match p.orbitDist with
  | none => 56
  | some q => if q = 0 then 56 else q

/-- The petal world position (lines 544-546), with the angle's cosine and
sine passed in as `(c, s)` — the trigonometry itself plays no role in any
claim. -/
def petalPos (p : Player) (c s : ℚ) : ℚ × ℚ :=
  (p.x + effOrbitDist p * c, p.y + effOrbitDist p * s)

/-- The admin branch of the `set_username` handler (lines 335-340): assign
the username; for the designated admin username triple the speed and set
`isAdmin` (the ultra-Bone grant of lines 342-355 touches only the
inventory and no claim). -/
def setUsernameBuffs (p : Player) (username : String) : Player :=
  if username = ADMIN_USERNAME then
    { p with speed := p.speed * 3, isAdmin := true }
  else p

/-! ## Helper lemmas -/

/-- Summing a pointwise map after overwriting index `i`, in additive form. -/
theorem sum_map_set {α : Type} (f : Option α → Nat) (x : Option α) :
    ∀ (l : List (Option α)) (i : Nat), i < l.length →
      ((l.set i x).map f).sum + f (jsIndex l i) = (l.map f).sum + f x := by
  intro l
  induction l with
  | nil => intro i h; simp at h
  | cons a tl ih =>
    intro i h
    cases i with
    | zero =>
      simp only [List.set, List.map_cons, List.sum_cons, jsIndex]
      omega
    | succ j =>
      have hj : j < tl.length := by simpa using h
      have h2 := ih j hj
      simp only [List.set, List.map_cons, List.sum_cons, jsIndex]
      omega

theorem invCount_set (n r : String) (inv : List (Option Slot)) (i : Nat)
    (s : Option Slot) (hi : i < inv.length) :
    invCount n r (inv.set i s) + slotCount n r (jsIndex inv i)
      = invCount n r inv + slotCount n r s :=
  sum_map_set (slotCount n r) s inv i hi

theorem hotCount_set (n r : String) (hb : List (Option Item)) (i : Nat)
    (c : Option Item) (hi : i < hb.length) :
    hotCount n r (hb.set i c) + cellCount n r (jsIndex hb i)
      = hotCount n r hb + cellCount n r c :=
  sum_map_set (cellCount n r) c hb i hi

/-- An index holding a present element is in range. -/
theorem jsIndex_lt {α : Type} :
    ∀ {l : List (Option α)} {i : Nat} {v : α},
      jsIndex l i = some v → i < l.length := by
  intro l
  induction l with
  | nil => intro i v h; simp [jsIndex] at h
  | cons a tl ih =>
    intro i v h
    cases i with
    | zero => simp
    | succ j =>
      have := ih (i := j) (v := v) h
      simp only [List.length_cons]
      omega

/-- Indexing after an in-range overwrite returns the new element. -/
theorem jsIndex_set_self {α : Type} (x : Option α) :
    ∀ (l : List (Option α)) (i : Nat), i < l.length →
      jsIndex (l.set i x) i = x := by
  intro l
  induction l with
  | nil => intro i h; simp at h
  | cons a tl ih =>
    intro i h
    cases i with
    | zero => simp [List.set, jsIndex]
    | succ j =>
      have hj : j < tl.length := by simpa using h
      simpa [List.set, jsIndex] using ih j hj

/-- Incrementing the first match succeeds exactly when a matching stack exists. -/
theorem incFirstMatch_isSome (it : Item) :
    ∀ inv : List (Option Slot), (incFirstMatch it inv).isSome = hasMatch it inv := by
  intro inv
  induction inv with
  | nil => rfl
  | cons s rest ih =>
    by_cases hm : matchesStack it s
    · cases s with
      | none => simp [matchesStack] at hm
      | some sl => simp [incFirstMatch, hasMatch, hm]
    · simp [incFirstMatch, hasMatch, hm, Option.isSome_map] at ih ⊢
      simpa [hasMatch] using ih

/-- Filling the first empty slot succeeds exactly when an empty slot exists. -/
theorem fillFirstEmpty_isSome (it : Item) :
    ∀ inv : List (Option Slot), (fillFirstEmpty it inv).isSome = hasEmpty inv := by
  intro inv
  induction inv with
  | nil => rfl
  | cons s rest ih =>
    cases s with
    | none => simp [fillFirstEmpty, hasEmpty]
    | some sl =>
      simp [fillFirstEmpty, hasEmpty, Option.isSome_map] at ih ⊢
      simpa [hasEmpty] using ih

/-- Successful `incFirstMatch` is an overwrite of the first matching index
by the incremented stack. -/
theorem incFirstMatch_eq_set (it : Item) :
    ∀ (inv inv2 : List (Option Slot)), incFirstMatch it inv = some inv2 →
      ∃ (i : Nat) (sl : Slot), firstMatchIdx it inv = some i
        ∧ inv.getD i none = some sl
        ∧ matchesStack it (some sl) = true
        ∧ inv2 = inv.set i (some { sl with count := sl.count + 1 }) := by
  intro inv
  induction inv with
  | nil => intro inv2 h; simp [incFirstMatch] at h
  | cons s rest ih =>
    intro inv2 h
    by_cases hm : matchesStack it s
    · cases s with
      | none => simp [matchesStack] at hm
      | some sl =>
        simp [incFirstMatch, hm] at h
        exact ⟨0, sl, by simp [firstMatchIdx, hm], by simp, by simpa using hm,
          by simp [List.set, ← h]⟩
    · simp [incFirstMatch, hm] at h
      obtain ⟨rest2, hr, hv⟩ := h
      obtain ⟨i, sl, h1, h2, h3, h4⟩ := ih rest2 hr
      exact ⟨i + 1, sl, by simp [firstMatchIdx, hm, h1], by simpa using h2, h3,
        by simp [List.set, ← hv, h4]⟩

/-- Successful `fillFirstEmpty` is an overwrite of the first empty index by
a fresh count-1 stack. -/
theorem fillFirstEmpty_eq_set (it : Item) :
    ∀ (inv inv2 : List (Option Slot)), fillFirstEmpty it inv = some inv2 →
      ∃ i : Nat, firstEmptyIdx inv = some i
        ∧ inv.getD i none = none
        ∧ inv2 = inv.set i (some { item := it, count := 1 }) := by
  intro inv
  induction inv with
  | nil => intro inv2 h; simp [fillFirstEmpty] at h
  | cons s rest ih =>
    intro inv2 h
    cases s with
    | none =>
      simp [fillFirstEmpty] at h
      exact ⟨0, by simp [firstEmptyIdx], by simp, by simp [List.set, ← h]⟩
    | some sl =>
      simp [fillFirstEmpty] at h
      obtain ⟨rest2, hr, hv⟩ := h
      obtain ⟨i, h1, h2, h3⟩ := ih rest2 hr
      exact ⟨i + 1, by simp [firstEmptyIdx, h1], by simpa using h2,
        by simp [List.set, ← hv, h3]⟩

/-- Incrementing the first matching stack adds exactly one unit of the
item's own name+rarity pair and nothing of any other pair. -/
theorem invCount_incFirstMatch (it : Item) (n r : String) :
    ∀ (inv inv2 : List (Option Slot)), incFirstMatch it inv = some inv2 →
      invCount n r inv2
        = invCount n r inv + (if it.name = n ∧ it.rarity = r then 1 else 0) := by
  intro inv
  induction inv with
  | nil => intro inv2 h; simp [incFirstMatch] at h
  | cons s rest ih =>
    intro inv2 h
    by_cases hm : matchesStack it s
    · cases s with
      | none => simp [matchesStack] at hm
      | some sl =>
        simp [incFirstMatch, hm] at h
        subst h
        have hn : sl.item.name = it.name := by
          simp [matchesStack] at hm; exact hm.1
        have hr : sl.item.rarity = it.rarity := by
          simp [matchesStack] at hm; exact hm.2
        simp only [invCount, List.map_cons, List.sum_cons, slotCount]
        by_cases hp : it.name = n ∧ it.rarity = r
        · simp [hn, hr, hp, hp.1, hp.2]; omega
        · have : ¬ (sl.item.name = n ∧ sl.item.rarity = r) := by
            rw [hn, hr]; exact hp
          simp [hp, this]
    · simp [incFirstMatch, hm] at h
      obtain ⟨rest2, hrr, hv⟩ := h
      subst hv
      have := ih rest2 hrr
      simp only [invCount, List.map_cons, List.sum_cons] at this ⊢
      omega

/-- Filling the first empty slot adds exactly one unit of the item's own
name+rarity pair and nothing of any other pair. -/
theorem invCount_fillFirstEmpty (it : Item) (n r : String) :
    ∀ (inv inv2 : List (Option Slot)), fillFirstEmpty it inv = some inv2 →
      invCount n r inv2
        = invCount n r inv + (if it.name = n ∧ it.rarity = r then 1 else 0) := by
  intro inv
  induction inv with
  | nil => intro inv2 h; simp [fillFirstEmpty] at h
  | cons s rest ih =>
    intro inv2 h
    cases s with
    | none =>
      simp [fillFirstEmpty] at h
      subst h
      simp only [invCount, List.map_cons, List.sum_cons, slotCount]
      by_cases hp : it.name = n ∧ it.rarity = r
      · simp [hp]; omega
      · simp [hp]
    | some sl =>
      simp [fillFirstEmpty] at h
      obtain ⟨rest2, hrr, hv⟩ := h
      subst hv
      have := ih rest2 hrr
      simp only [invCount, List.map_cons, List.sum_cons] at this ⊢
      omega

/-! ## Claim theorems -/

/-- C10: `orbit_control` stores the client-supplied orbit distance on the
player without validation; the tick's petal position computation substitutes
56 whenever the stored value is falsy (absent or zero), so a player with a
falsy `orbitDist` orbits every equipped item at radius 56, and an effective
orbit radius of exactly 0 is unobtainable. -/
theorem C10_orbit_control_default (p : Player) (v : Option ℚ) (c s : ℚ)
    (hf : orbitDistFalsy p.orbitDist = true) :
    (orbitControl p v).orbitDist = v
    ∧ effOrbitDist p = 56
    ∧ petalPos p c s = (p.x + 56 * c, p.y + 56 * s)
    ∧ ∀ q : Player, effOrbitDist q ≠ 0 := by
  refine ⟨rfl, ?_, ?_, ?_⟩
  · cases hod : p.orbitDist with
    | none => simp [effOrbitDist, hod]
    | some d =>
      simp [orbitDistFalsy, hod] at hf
      simp [effOrbitDist, hod, hf]
  · cases hod : p.orbitDist with
    | none => simp [petalPos, effOrbitDist, hod]
    | some d =>
      simp [orbitDistFalsy, hod] at hf
      simp [petalPos, effOrbitDist, hod, hf]
  · intro q
    cases hod : q.orbitDist with
    | none => simp [effOrbitDist, hod]
    | some d =>
      by_cases hd : d = 0 <;> simp [effOrbitDist, hod, hd]

/-- Witness for C10 at a concrete player whose stored `orbitDist` is 0. -/
theorem C10_orbit_control_default_witness :
    (orbitControl
        { id := "p1", x := 100, y := 200, radius := 20, speed := 3, health := 100,
          maxHealth := 100, invincibleUntil := 0, isAdmin := false,
          orbitDist := some 0, inventory := [], hotbar := [] } (some 0)).orbitDist = some 0
    ∧ effOrbitDist
        { id := "p1", x := 100, y := 200, radius := 20, speed := 3, health := 100,
          maxHealth := 100, invincibleUntil := 0, isAdmin := false,
          orbitDist := some 0, inventory := [], hotbar := [] } = 56 := by
  have h := C10_orbit_control_default
    { id := "p1", x := 100, y := 200, radius := 20, speed := 3, health := 100,
      maxHealth := 100, invincibleUntil := 0, isAdmin := false,
      orbitDist := some 0, inventory := [], hotbar := [] } (some 0) 1 0 (by decide)
  exact ⟨h.1, h.2.1⟩

/-- C6 (evidence of the code defect): `spawnMob` never records a spawn
timestamp, so the despawn test `Date.now() - m.spawnTime > 60000` compares
against `NaN` and is `false` forever — a spawned mob survives every despawn
pass at every later time, contradicting the fixed time-to-live policy. -/
theorem C6_spawned_mob_never_despawns (x y : ℚ) (id : String) (now : Nat) :
    (spawnMob x y id).spawnTime = none
    ∧ despawnCheck now (spawnMob x y id) = false
    ∧ despawnPass now [spawnMob x y id] = [spawnMob x y id] := by
  have h1 : (spawnMob x y id).spawnTime = none := rfl
  refine ⟨h1, by simp [despawnCheck, h1], ?_⟩
  simp [despawnPass, despawnCheck, h1]

/-- C9 (evidence of the code defect): in the nested inner tick the mob-hit
block reads the unbound identifier `dmg` (no enclosing scope of that
callback defines it), so the first in-range hit throws a `ReferenceError`;
and even under a `dmg` binding, a freshly spawned mob has no
`damageDealers` set, so the unguarded `m.damageDealers.add(p.id)` throws a
`TypeError`.  Either way the shared tick loop crashes instead of running to
completion. -/
theorem C9_inner_tick_throws :
    innerTickMobHit 1000 none "p1" false (createBonePetal "common") 0 0
      (spawnMob 0 0 "m1") [] "d1" = .error .referenceError
    ∧ innerTickMobHit 1000 (some 30) "p1" false (createBonePetal "common") 0 0
      (spawnMob 0 0 "m1") [] "d1" = .error .typeError := by
  have hm : spawnMob 0 0 "m1" =
      { id := "m1", x := 0, y := 0, radius := 40, damage := 25, health := 100,
        maxHealth := 100, rarity := "common", color := "purple", targetId := none,
        type := "beetle", damageDealers := none, spawnTime := none } := by
    simp [spawnMob, zoneWidth, worldWidth, worldHeight, rarityZones, rarityMultiplier]
  rw [hm]
  constructor <;>
    norm_num [innerTickMobHit, hitCheck, dist2, itemRadius, createBonePetal,
      rarityMultiplier]

/-- C4: a player inside their invincibility window (`now < invincibleUntil`)
is untouched by any orbit-weapon hit — victim and striking item both come
back unchanged, the occupied hotbar cell stays occupied — and the mob AI
pass (an empty loop) damages no one, so such a player takes zero damage
from any source. -/
theorem C4_invincible_takes_no_damage (now : Nat) (atk : Player) (item : Item)
    (px py : ℚ) (other : Player) (h : now < other.invincibleUntil) :
    strikePlayer now atk item px py other = (other, item)
    ∧ strikeCell now atk (some item) px py other = (other, some item)
    ∧ ∀ (ps : List Player) (ms : List Mob), mobAIPass ps ms = (ps, ms) := by
  have hiu : other.invincibleUntil ≠ 0 := by omega
  have hs : strikePlayer now atk item px py other = (other, item) := by
    unfold strikePlayer
    by_cases h1 : other.id = atk.id ∨ other.health ≤ 0
    · simp [h1]
    · by_cases h2 : hitCheck px py other.x other.y other.radius item
      · simp [h1, h2, hiu, h]
      · simp [h1, h2]
  exact ⟨hs, by simp [strikeCell, hs], fun ps ms => rfl⟩

/-- Witness for C4 at a concrete invincible victim standing on the petal. -/
theorem C4_invincible_takes_no_damage_witness :
    strikePlayer 500
      { id := "a", x := 0, y := 0, radius := 20, speed := 3, health := 100,
        maxHealth := 100, invincibleUntil := 0, isAdmin := false,
        orbitDist := none, inventory := [], hotbar := [] }
      (createBonePetal "common") 0 0
      { id := "b", x := 0, y := 0, radius := 20, speed := 3, health := 100,
        maxHealth := 100, invincibleUntil := 2000, isAdmin := false,
        orbitDist := none, inventory := [], hotbar := [] }
    = ({ id := "b", x := 0, y := 0, radius := 20, speed := 3, health := 100,
         maxHealth := 100, invincibleUntil := 2000, isAdmin := false,
         orbitDist := none, inventory := [], hotbar := [] },
       createBonePetal "common") :=
  (C4_invincible_takes_no_damage 500 _ _ 0 0 _ (by decide)).1

/-- C3: on a tick-pass hit against a living, non-invincible other player,
the striking item's durability drops by exactly the (admin-scaled) damage
it dealt on that hit; if the resulting durability is ≤ 0 the item's
`reloadUntil` becomes `now + reload` and its durability snaps back to
`maxHealth`; otherwise the reload timer is untouched; and the hotbar cell
holding the item stays occupied — depletion never removes it. -/
theorem C3_strike_durability (now : Nat) (atk : Player) (item : Item)
    (px py : ℚ) (other : Player)
    (hid : other.id ≠ atk.id) (halive : 0 < other.health)
    (hhit : hitCheck px py other.x other.y other.radius item = true)
    (hniv : other.invincibleUntil ≤ now) :
    ((strikePlayer now atk item px py other).1.health =
      if other.health - (if atk.isAdmin then item.damage * 2 else item.damage) ≤ 0
      then 0
      else other.health - (if atk.isAdmin then item.damage * 2 else item.damage))
    ∧ (item.health - (if atk.isAdmin then item.damage * 2 else item.damage) ≤ 0 →
        (strikePlayer now atk item px py other).2.reloadUntil = now + item.reload
        ∧ (strikePlayer now atk item px py other).2.health = item.maxHealth)
    ∧ (¬ item.health - (if atk.isAdmin then item.damage * 2 else item.damage) ≤ 0 →
        (strikePlayer now atk item px py other).2.reloadUntil = item.reloadUntil
        ∧ item.health - (strikePlayer now atk item px py other).2.health
            = (if atk.isAdmin then item.damage * 2 else item.damage))
    ∧ (strikeCell now atk (some item) px py other).2.isSome = true := by
  have h1 : ¬ (other.id = atk.id ∨ other.health ≤ 0) := by
    push_neg
    exact ⟨hid, by omega⟩
  have h2 : ¬ (other.invincibleUntil ≠ 0 ∧ now < other.invincibleUntil) := by
    rintro ⟨-, hlt⟩; omega
  refine ⟨?_, ?_, ?_, ?_⟩
  · by_cases hd : item.health - (if atk.isAdmin then item.damage * 2 else item.damage) ≤ 0 <;>
      simp [strikePlayer, h1, hhit, h2, hd]
  · intro hd
    simp [strikePlayer, h1, hhit, h2, hd]
  · intro hd
    constructor
    · simp [strikePlayer, h1, hhit, h2, hd]
    · simp only [strikePlayer, h1, hhit, h2]
      simp [hd]
  · simp [strikeCell, strikePlayer, h1, hhit, h2]

/-- Witness for C3: a common Bone petal (damage 30, durability 75) striking
a full-health player; durability 75 − 30 = 45 stays positive, so the reload
timer is untouched and the victim drops to 70. -/
theorem C3_strike_durability_witness :
    (strikePlayer 500
      { id := "a", x := 0, y := 0, radius := 20, speed := 3, health := 100,
        maxHealth := 100, invincibleUntil := 0, isAdmin := false,
        orbitDist := none, inventory := [], hotbar := [] }
      (createBonePetal "common") 0 0
      { id := "b", x := 0, y := 0, radius := 20, speed := 3, health := 100,
        maxHealth := 100, invincibleUntil := 0, isAdmin := false,
        orbitDist := none, inventory := [], hotbar := [] }).2.reloadUntil
      = (createBonePetal "common").reloadUntil
    ∧ (createBonePetal "common").health
        - (strikePlayer 500
            { id := "a", x := 0, y := 0, radius := 20, speed := 3, health := 100,
              maxHealth := 100, invincibleUntil := 0, isAdmin := false,
              orbitDist := none, inventory := [], hotbar := [] }
            (createBonePetal "common") 0 0
            { id := "b", x := 0, y := 0, radius := 20, speed := 3, health := 100,
              maxHealth := 100, invincibleUntil := 0, isAdmin := false,
              orbitDist := none, inventory := [], hotbar := [] }).2.health = 30 := by
  have h := C3_strike_durability 500
    { id := "a", x := 0, y := 0, radius := 20, speed := 3, health := 100,
      maxHealth := 100, invincibleUntil := 0, isAdmin := false,
      orbitDist := none, inventory := [], hotbar := [] }
    (createBonePetal "common") 0 0
    { id := "b", x := 0, y := 0, radius := 20, speed := 3, health := 100,
      maxHealth := 100, invincibleUntil := 0, isAdmin := false,
      orbitDist := none, inventory := [], hotbar := [] }
    (by decide) (by decide)
    (by norm_num [hitCheck, dist2, itemRadius, createBonePetal]) (by decide)
  have h3 := h.2.2.1 (by decide)
  exact ⟨h3.1, by simpa using h3.2⟩

/-- C5 counterexample: the claim says the designated admin account also
*receives* doubled damage, but the damage formula consults only the
*attacker's* admin flag.  A non-admin striker whose petal deals 30 leaves
an admin victim at 70 health, not at the 40 the claim predicts. -/
theorem C5_admin_receives_normal_damage :
    (strikePlayer 500
      { id := "a", x := 0, y := 0, radius := 20, speed := 3, health := 100,
        maxHealth := 100, invincibleUntil := 0, isAdmin := false,
        orbitDist := none, inventory := [], hotbar := [] }
      (createBonePetal "common") 0 0
      { id := "b", x := 0, y := 0, radius := 20, speed := 9, health := 100,
        maxHealth := 100, invincibleUntil := 0, isAdmin := true,
        orbitDist := none, inventory := [], hotbar := [] }).1.health = 70
    ∧ ((70 : Int) = 100 - (createBonePetal "common").damage * 2 → False) := by
  constructor
  · norm_num [strikePlayer, hitCheck, dist2, itemRadius, createBonePetal,
      rarityMultiplier]
    decide
  · intro h
    norm_num [createBonePetal, rarityMultiplier] at h

/-- C5 as amended: the admin asymmetry is attacker-side and speed-side only.
The designated username deals doubled damage to players and to mobs, its
equipped items take doubled durability damage from mobs, and its movement
speed is tripled — but damage *received* by the admin from another player's
petal is not doubled: the victim's admin flag is irrelevant to the damage
formula. -/
theorem C5_admin_asymmetry (now : Nat) (atk : Player) (item : Item)
    (px py : ℚ) (other : Player) (m : Mob) (p : Player) (u : String)
    (pid : String) (players : List String) (dropId : String)
    (hid : other.id ≠ atk.id) (halive : 0 < other.health)
    (hhit : hitCheck px py other.x other.y other.radius item = true)
    (hniv : other.invincibleUntil ≤ now)
    (hmal : 0 < m.health)
    (hmhit : hitCheck px py m.x m.y m.radius item = true) :
    ((strikePlayer now atk item px py other).1.health
      = if other.health - (if atk.isAdmin then item.damage * 2 else item.damage) ≤ 0
        then 0
        else other.health - (if atk.isAdmin then item.damage * 2 else item.damage))
    ∧ (∀ b : Bool,
        (strikePlayer now atk item px py { other with isAdmin := b }).1.health
          = (strikePlayer now atk item px py other).1.health)
    ∧ (¬ m.health - (if atk.isAdmin then item.damage * 2 else item.damage) ≤ 0 →
        (hitMob now pid atk.isAdmin item px py m players dropId).mob
          = some { m with
              health := m.health - (if atk.isAdmin then item.damage * 2 else item.damage),
              damageDealers := some (addDealer pid m.damageDealers) })
    ∧ (¬ item.health - (if atk.isAdmin then m.damage * 2 else m.damage) ≤ 0 →
        item.health - (hitMob now pid atk.isAdmin item px py m players dropId).item.health
          = (if atk.isAdmin then m.damage * 2 else m.damage))
    ∧ (setUsernameBuffs p u).speed = (if u = ADMIN_USERNAME then p.speed * 3 else p.speed)
    ∧ (setUsernameBuffs p u).isAdmin = (if u = ADMIN_USERNAME then true else p.isAdmin) := by
  have h1 : ¬ (other.id = atk.id ∨ other.health ≤ 0) := by
    push_neg
    exact ⟨hid, by omega⟩
  have h2 : ¬ (other.invincibleUntil ≠ 0 ∧ now < other.invincibleUntil) := by
    rintro ⟨-, hlt⟩; omega
  have hmal2 : ¬ m.health ≤ 0 := by omega
  refine ⟨?_, ?_, ?_, ?_, ?_, ?_⟩
  · by_cases hd : other.health - (if atk.isAdmin then item.damage * 2 else item.damage) ≤ 0 <;>
      simp [strikePlayer, h1, hhit, h2, hd]
  · intro b
    simp only [strikePlayer]
    simp [h1, hhit, h2]
  · intro hs
    simp [hitMob, hmal2, hmhit, hs]
  · intro hs
    by_cases hk : m.health - (if atk.isAdmin then item.damage * 2 else item.damage) ≤ 0
    · by_cases ht : m.type = "beetle" <;>
        simp [hitMob, hmal2, hmhit, hs, hk, ht]
    · simp [hitMob, hmal2, hmhit, hs, hk]
      try omega
  · by_cases hu : u = ADMIN_USERNAME <;> simp [setUsernameBuffs, hu]
  · by_cases hu : u = ADMIN_USERNAME <;> simp [setUsernameBuffs, hu]

/-- Witness for C5's amended statement: an admin attacker's 30-damage petal
takes a full-health victim to 40, and the admin username triples speed. -/
theorem C5_admin_asymmetry_witness :
    (strikePlayer 500
      { id := "a", x := 0, y := 0, radius := 20, speed := 9, health := 100,
        maxHealth := 100, invincibleUntil := 0, isAdmin := true,
        orbitDist := none, inventory := [], hotbar := [] }
      (createBonePetal "common") 0 0
      { id := "b", x := 0, y := 0, radius := 20, speed := 3, health := 100,
        maxHealth := 100, invincibleUntil := 0, isAdmin := false,
        orbitDist := none, inventory := [], hotbar := [] }).1.health
      = (if (100 : Int) - (createBonePetal "common").damage * 2 ≤ 0 then 0
         else 100 - (createBonePetal "common").damage * 2)
    ∧ (setUsernameBuffs
        { id := "c", x := 0, y := 0, radius := 20, speed := 3, health := 100,
          maxHealth := 100, invincibleUntil := 0, isAdmin := false,
          orbitDist := none, inventory := [], hotbar := [] } "CharmedZ").speed
      = (if "CharmedZ" = ADMIN_USERNAME then (3 : ℚ) * 3 else 3) := by
  have h := C5_admin_asymmetry 500
    { id := "a", x := 0, y := 0, radius := 20, speed := 9, health := 100,
      maxHealth := 100, invincibleUntil := 0, isAdmin := true,
      orbitDist := none, inventory := [], hotbar := [] }
    (createBonePetal "common") 0 0
    { id := "b", x := 0, y := 0, radius := 20, speed := 3, health := 100,
      maxHealth := 100, invincibleUntil := 0, isAdmin := false,
      orbitDist := none, inventory := [], hotbar := [] }
    { id := "m1", x := 0, y := 0, radius := 40, damage := 25, health := 1000,
      maxHealth := 1000, rarity := "common", color := "purple", targetId := none,
      type := "beetle", damageDealers := none, spawnTime := none }
    { id := "c", x := 0, y := 0, radius := 20, speed := 3, health := 100,
      maxHealth := 100, invincibleUntil := 0, isAdmin := false,
      orbitDist := none, inventory := [], hotbar := [] }
    "CharmedZ" "a" ["a"] "d1"
    (by decide) (by decide)
    (by norm_num [hitCheck, dist2, itemRadius, createBonePetal]) (by decide)
    (by decide)
    (by norm_num [hitCheck, dist2, itemRadius, createBonePetal])
  exact ⟨h.1, h.2.2.2.2.1⟩

/-- C1 as amended: out of range the pickup is a complete no-op; in range,
a matching stack is incremented, else the first empty slot is filled with
count 1 — but the world item is deleted in *every* in-range case, including
the full-inventory failure, where the inventory is left unchanged yet the
item still vanishes from the world (`items.delete` sits outside the
empty-slot test). -/
theorem C1_pickup_cases (p : Player) (w : WorldItem) :
    (withinPickup p w = false → pickup p w = ⟨p.inventory, false⟩)
    ∧ (withinPickup p w = true →
        (pickup p w).itemRemoved = true
        ∧ (hasMatch w.item p.inventory = true →
            invCount w.item.name w.item.rarity (pickup p w).inv
              = invCount w.item.name w.item.rarity p.inventory + 1)
        ∧ (hasMatch w.item p.inventory = false → hasEmpty p.inventory = true →
            ∃ i, firstEmptyIdx p.inventory = some i
              ∧ (pickup p w).inv
                  = p.inventory.set i (some { item := w.item, count := 1 }))
        ∧ (hasMatch w.item p.inventory = false → hasEmpty p.inventory = false →
            (pickup p w).inv = p.inventory)) := by
  constructor
  · intro hw
    simp [pickup, hw]
  · intro hw
    refine ⟨?_, ?_, ?_, ?_⟩
    · cases hinc : incFirstMatch w.item p.inventory with
      | some inv2 => simp [pickup, hw, hinc]
      | none =>
        cases hfill : fillFirstEmpty w.item p.inventory with
        | some inv2 => simp [pickup, hw, hinc, hfill]
        | none => simp [pickup, hw, hinc, hfill]
    · intro hm
      have hs : (incFirstMatch w.item p.inventory).isSome = true := by
        rw [incFirstMatch_isSome]; exact hm
      obtain ⟨inv2, hinc⟩ := Option.isSome_iff_exists.mp hs
      have := invCount_incFirstMatch w.item w.item.name w.item.rarity
        p.inventory inv2 hinc
      simp [pickup, hw, hinc, this]
    · intro hm he
      have hs : (incFirstMatch w.item p.inventory).isSome = false := by
        rw [incFirstMatch_isSome]; exact hm
      have hinc : incFirstMatch w.item p.inventory = none := by
        simpa [Option.isSome_iff_exists] using hs
      have hf : (fillFirstEmpty w.item p.inventory).isSome = true := by
        rw [fillFirstEmpty_isSome]; exact he
      obtain ⟨inv2, hfill⟩ := Option.isSome_iff_exists.mp hf
      obtain ⟨i, h1, h2, h3⟩ := fillFirstEmpty_eq_set w.item p.inventory inv2 hfill
      exact ⟨i, h1, by simp [pickup, hw, hinc, hfill, h3]⟩
    · intro hm he
      have hinc : incFirstMatch w.item p.inventory = none := by
        have hs : (incFirstMatch w.item p.inventory).isSome = false := by
          rw [incFirstMatch_isSome]; exact hm
        simpa [Option.isSome_iff_exists] using hs
      have hfill : fillFirstEmpty w.item p.inventory = none := by
        have hs : (fillFirstEmpty w.item p.inventory).isSome = false := by
          rw [fillFirstEmpty_isSome]; exact he
        simpa [Option.isSome_iff_exists] using hs
      simp [pickup, hw, hinc, hfill]

/-- Concrete test fixture: a `spawnItem`-style Petal stack (count 1). -/
def petalStack : Option Slot :=
  some { item := { name := "Petal", color := "cyan", damage := 5, health := 15,
                   maxHealth := 15, reload := 2000, reloadUntil := 0,
                   rarity := "common", radius := some 8 },
         count := 1 }

/-- Concrete test fixture: a full 24-slot inventory of Petal stacks. -/
def fullInventory : List (Option Slot) := List.replicate 24 petalStack

/-- Concrete test fixture: a player standing at the origin with the full
inventory. -/
def pFull : Player :=
  { id := "p1", x := 0, y := 0, radius := 20, speed := 3, health := 100,
    maxHealth := 100, invincibleUntil := 0, isAdmin := false, orbitDist := none,
    inventory := fullInventory, hotbar := [] }

/-- Concrete test fixture: a dropped common Bone at the origin. -/
def wBone : WorldItem :=
  { id := "w1", x := 0, y := 0, radius := 8, item := createBonePetal "common" }

/-- Concrete test fixture: a two-slot inventory with a Bone stack and one
empty slot. -/
def smallInventory : List (Option Slot) :=
  [some { item := createBonePetal "common", count := 2 }, none]

/-- Concrete test fixture: the same player with the small inventory. -/
def pSmall : Player :=
  { id := "p1", x := 0, y := 0, radius := 20, speed := 3, health := 100,
    maxHealth := 100, invincibleUntil := 0, isAdmin := false, orbitDist := none,
    inventory := smallInventory, hotbar := [] }

/-- C1 counterexample: a player standing on a droppable Bone with a full
24-slot inventory of non-matching stacks.  The claim says such a pickup is
a no-op leaving the world item in place; the code leaves the inventory
unchanged but still deletes the world item. -/
theorem C1_pickup_counterexample :
    withinPickup pFull wBone = true
    ∧ hasMatch wBone.item pFull.inventory = false
    ∧ hasEmpty pFull.inventory = false
    ∧ (pickup pFull wBone).inv = pFull.inventory
    ∧ (pickup pFull wBone).itemRemoved = true := by
  have hw : withinPickup pFull wBone = true := by
    norm_num [withinPickup, dist2, pFull, wBone]
  refine ⟨hw, by decide, by decide, ?_, ?_⟩
  · simp only [pickup, hw, if_true]
    decide
  · simp only [pickup, hw, if_true]
    decide

/-- Witness for C1's amended statement: an in-range pickup into an
inventory holding a matching Bone stack increments that stack. -/
theorem C1_pickup_cases_witness :
    invCount "Bone" "common" (pickup pSmall wBone).inv
      = invCount "Bone" "common" pSmall.inventory + 1 := by
  have h := C1_pickup_cases pSmall wBone
  have h2 := (h.2 (by norm_num [withinPickup, dist2, pSmall, wBone])).2.1 (by decide)
  simpa [wBone, createBonePetal, rarityMultiplier] using h2


/-- The stacked-unit identity behind equip conservation: a stack of
`count ≥ 1` holds the units of its decremented version plus one hotbar
copy of its item. -/
theorem slotCount_split (n r : String) (sl : Slot) (hc : 1 ≤ sl.count) :
    slotCount n r (some sl)
      = slotCount n r (some { sl with count := sl.count - 1 })
        + cellCount n r (some sl.item) := by
  by_cases hp : sl.item.name = n ∧ sl.item.rarity = r
  · simp [slotCount, cellCount, hp]
    omega
  · simp [slotCount, cellCount, hp]

/-- C2: per-(name, rarity) unit conservation for equip and unequip.  An
equip from an occupied inventory slot conserves the inventory+hotbar total
minus exactly the units in the overwritten hotbar cell (the displaced
hotbar item is discarded, not returned); an equip from an empty slot is a
no-op; an equip decrements a `count > 1` stack and copies its item into
the hotbar, and clears a `count = 1` stack; and unequip conserves the
total in every case, including the full-inventory no-op. -/
theorem C2_equip_unequip_conservation (inv : List (Option Slot))
    (hb : List (Option Item)) (ii hi : Nat) (n r : String)
    (hwf : ∀ sl, jsIndex inv ii = some sl → 1 ≤ sl.count)
    (hhi : hi < hb.length) :
    (∀ sl, jsIndex inv ii = some sl →
        invCount n r (equip inv hb ii hi).1 + hotCount n r (equip inv hb ii hi).2
            + cellCount n r (jsIndex hb hi)
          = invCount n r inv + hotCount n r hb)
    ∧ (jsIndex inv ii = none → equip inv hb ii hi = (inv, hb))
    ∧ (∀ sl, jsIndex inv ii = some sl → 1 < sl.count →
        (equip inv hb ii hi).1 = inv.set ii (some { sl with count := sl.count - 1 })
          ∧ (equip inv hb ii hi).2 = hb.set hi (some sl.item))
    ∧ (∀ sl, jsIndex inv ii = some sl → sl.count = 1 →
        (equip inv hb ii hi).1 = inv.set ii none
          ∧ (equip inv hb ii hi).2 = hb.set hi (some sl.item))
    ∧ (invCount n r (unequip inv hb hi).1 + hotCount n r (unequip inv hb hi).2
        = invCount n r inv + hotCount n r hb) := by
  refine ⟨?_, ?_, ?_, ?_, ?_⟩
  · intro sl hslot
    have hii : ii < inv.length := jsIndex_lt hslot
    have hc := hwf sl hslot
    have hsplit := slotCount_split n r sl hc
    by_cases hcount : 1 < sl.count
    · have e1 := invCount_set n r inv ii
        (some { sl with count := sl.count - 1 }) hii
      have e2 := hotCount_set n r hb hi (some sl.item) hhi
      rw [hslot] at e1
      simp only [equip, hslot, if_pos hcount]
      omega
    · have hc1 : sl.count = 1 := by omega
      have e1 := invCount_set n r inv ii none hii
      have e2 := hotCount_set n r hb hi (some sl.item) hhi
      rw [hslot] at e1
      simp only [equip, hslot, if_neg hcount]
      have hz : slotCount n r (none : Option Slot) = 0 := rfl
      have hz2 : slotCount n r (some { sl with count := sl.count - 1 }) = 0 := by
        by_cases hp : sl.item.name = n ∧ sl.item.rarity = r <;>
          simp [slotCount, hp, hc1]
      omega
  · intro hslot
    simp [equip, hslot]
  · intro sl hslot hcount
    constructor <;> simp [equip, hslot, if_pos hcount]
  · intro sl hslot hcount
    have hcount2 : ¬ 1 < sl.count := by omega
    constructor <;> simp [equip, hslot, if_neg hcount2]
  · cases hcell : jsIndex hb hi with
    | none => simp [unequip, hcell]
    | some it =>
      cases hinc : incFirstMatch it inv with
      | some inv2 =>
        have e1 := invCount_incFirstMatch it n r inv inv2 hinc
        have e2 := hotCount_set n r hb hi none hhi
        rw [hcell] at e2
        simp only [unequip, hcell, hinc]
        have hcc : cellCount n r (some it)
            = (if it.name = n ∧ it.rarity = r then 1 else 0) := rfl
        have hnone : cellCount n r (none : Option Item) = 0 := rfl
        omega
      | none =>
        cases hfill : fillFirstEmpty it inv with
        | some inv2 =>
          have e1 := invCount_fillFirstEmpty it n r inv inv2 hfill
          have e2 := hotCount_set n r hb hi none hhi
          rw [hcell] at e2
          simp only [unequip, hcell, hinc, hfill]
          have hcc : cellCount n r (some it)
              = (if it.name = n ∧ it.rarity = r then 1 else 0) := rfl
          have hnone : cellCount n r (none : Option Item) = 0 := rfl
          omega
        | none => simp [unequip, hcell, hinc, hfill]

/-- Witness for C2 at a concrete loadout: equipping from a count-2 Bone
stack into a hotbar cell holding a Bone loses exactly that overwritten
Bone's unit. -/
theorem C2_equip_unequip_conservation_witness :
    invCount "Bone" "common"
        (equip smallInventory [some (createBonePetal "common")] 0 0).1
      + hotCount "Bone" "common"
          (equip smallInventory [some (createBonePetal "common")] 0 0).2
      + cellCount "Bone" "common"
          (jsIndex [some (createBonePetal "common")] 0)
      = invCount "Bone" "common" smallInventory
        + hotCount "Bone" "common" [some (createBonePetal "common")] :=
  (C2_equip_unequip_conservation smallInventory [some (createBonePetal "common")]
    0 0 "Bone" "common" (by decide) (by decide)).1
    { item := createBonePetal "common", count := 2 } (by decide)

/-- Concrete test fixture: a nearly dead common beetle already damaged by
player "a". -/
def mobHurt : Mob :=
  { id := "m1", x := 0, y := 0, radius := 40, damage := 25, health := 10,
    maxHealth := 100, rarity := "common", color := "purple", targetId := none,
    type := "beetle", damageDealers := some ["a"], spawnTime := none }

/-- C8: a combat kill of a mob removes it from the store, creates exactly
one loot drop (the Bone of the mob's rarity at the mob's position), and
sends the targeted `item_spawn` to exactly the player ids recorded in the
mob's damage-dealer set (killing-blow dealer included) and to no one else;
every notified id is a connected player. -/
theorem C8_mob_kill_loot (now : Nat) (pid : String) (isAdmin : Bool)
    (item : Item) (px py : ℚ) (m : Mob) (players : List String)
    (dropId : String)
    (halive : 0 < m.health)
    (hhit : hitCheck px py m.x m.y m.radius item = true)
    (hkill : m.health - (if isAdmin then item.damage * 2 else item.damage) ≤ 0)
    (htype : m.type = "beetle")
    (hconn : ∀ q ∈ addDealer pid m.damageDealers, q ∈ players) :
    (hitMob now pid isAdmin item px py m players dropId).mob = none
    ∧ (hitMob now pid isAdmin item px py m players dropId).drop
        = some { id := dropId, x := m.x, y := m.y, radius := 16,
                 item := createBonePetal m.rarity }
    ∧ pid ∈ addDealer pid m.damageDealers
    ∧ (∀ q, q ∈ (hitMob now pid isAdmin item px py m players dropId).notified
        ↔ q ∈ addDealer pid m.damageDealers)
    ∧ (∀ q, q ∈ (hitMob now pid isAdmin item px py m players dropId).notified
        → q ∈ players) := by
  have hB : ¬ m.health ≤ 0 := by omega
  have hres : (hitMob now pid isAdmin item px py m players dropId).notified
      = (addDealer pid m.damageDealers).filter (fun q => players.contains q) := by
    simp [hitMob, hB, hhit, hkill, htype]
  refine ⟨?_, ?_, ?_, ?_, ?_⟩
  · simp [hitMob, hB, hhit, hkill, htype]
  · simp [hitMob, hB, hhit, hkill, htype]
  · by_cases hp : pid ∈ m.damageDealers.getD [] <;> simp [addDealer, hp]
  · intro q
    rw [hres]
    simp only [List.mem_filter]
    constructor
    · exact fun hq => hq.1
    · intro hq
      refine ⟨hq, ?_⟩
      simpa using hconn q hq
  · intro q hq
    rw [hres] at hq
    simp only [List.mem_filter] at hq
    simpa using hq.2

/-- Witness for C8: player "b" lands the killing blow on a beetle already
hit by "a"; both "a" and "b" are notified, and the mob is gone. -/
theorem C8_mob_kill_loot_witness :
    (hitMob 77 "b" false (createBonePetal "common") 0 0 mobHurt
        ["a", "b", "c"] "d1").mob = none
    ∧ ("a" ∈ (hitMob 77 "b" false (createBonePetal "common") 0 0 mobHurt
        ["a", "b", "c"] "d1").notified
      ↔ "a" ∈ addDealer "b" mobHurt.damageDealers) := by
  have h := C8_mob_kill_loot 77 "b" false (createBonePetal "common") 0 0
    mobHurt ["a", "b", "c"] "d1"
    (by decide)
    (by norm_num [hitCheck, dist2, itemRadius, createBonePetal, mobHurt])
    (by decide) (by decide) (by decide)
  exact ⟨h.1, h.2.2.2.1 "a"⟩

/-- Appending one mob changes exactly its own zone's count. -/
theorem countMobsInZone_append (z : Int) (ms : List Mob) (m : Mob) :
    countMobsInZone z (ms ++ [m])
      = countMobsInZone z ms + (if mobZone m = z then 1 else 0) := by
  by_cases h : mobZone m = z <;>
    simp [countMobsInZone, List.filter_append, h]

/-- The zone width is positive. -/
theorem zoneWidth_pos : (0 : ℚ) < zoneWidth := by
  norm_num [zoneWidth, worldWidth]

/-- A mob spawned by the pass for zone `zi < 7` with random draws in
`[0, 1)` is placed, unclamped, inside zone `zi`'s horizontal band and the
map's height, and `countMobsInZone`'s zone formula puts it back in `zi`. -/
theorem spawnMob_in_zone (zi : Nat) (hzi : zi < 7) (rx ry : ℚ)
    (hrx0 : 0 ≤ rx) (hrx1 : rx < 1) (hry0 : 0 ≤ ry) (hry1 : ry < 1)
    (id : String) :
    (spawnMob (zi * zoneWidth + rx * zoneWidth) (ry * worldHeight) id).x
        = zi * zoneWidth + rx * zoneWidth
    ∧ mobZone (spawnMob (zi * zoneWidth + rx * zoneWidth) (ry * worldHeight) id)
        = (zi : Int)
    ∧ (spawnMob (zi * zoneWidth + rx * zoneWidth) (ry * worldHeight) id).y
        = ry * worldHeight
    ∧ 0 ≤ ry * worldHeight ∧ ry * worldHeight ≤ worldHeight := by
  have hw : (0 : ℚ) < zoneWidth := zoneWidth_pos
  have hzq : (zi : ℚ) ≤ 6 := by
    have : (zi : ℚ) ≤ (6 : ℚ) := by exact_mod_cast Nat.lt_succ_iff.mp hzi
    exact this
  have hwle : (0 : ℚ) ≤ zoneWidth := le_of_lt hw
  have hx0 : 0 ≤ (zi : ℚ) * zoneWidth + rx * zoneWidth :=
    add_nonneg (mul_nonneg (Nat.cast_nonneg zi) hwle) (mul_nonneg hrx0 hwle)
  have hxw : (zi : ℚ) * zoneWidth + rx * zoneWidth < worldWidth := by
    have h1 : (zi : ℚ) * zoneWidth + rx * zoneWidth < ((zi : ℚ) + 1) * zoneWidth := by
      nlinarith
    have h2 : ((zi : ℚ) + 1) * zoneWidth ≤ 7 * zoneWidth := by nlinarith
    have h3 : (7 : ℚ) * zoneWidth = worldWidth := by
      norm_num [zoneWidth, worldWidth]
    linarith
  have hy0 : 0 ≤ ry * worldHeight :=
    mul_nonneg hry0 (by norm_num [worldHeight])
  have hyh : ry * worldHeight ≤ worldHeight := by
    nlinarith [show (0:ℚ) < worldHeight by norm_num [worldHeight]]
  have hxeq : (spawnMob ((zi : ℚ) * zoneWidth + rx * zoneWidth)
      (ry * worldHeight) id).x = (zi : ℚ) * zoneWidth + rx * zoneWidth := by
    simp only [spawnMob]
    rw [min_eq_right (le_of_lt hxw), max_eq_right hx0]
  have hyeq : (spawnMob ((zi : ℚ) * zoneWidth + rx * zoneWidth)
      (ry * worldHeight) id).y = ry * worldHeight := by
    simp only [spawnMob]
    rw [min_eq_right hyh, max_eq_right hy0]
  refine ⟨hxeq, ?_, hyeq, hy0, hyh⟩
  rw [mobZone, hxeq]
  have hdiv : ((zi : ℚ) * zoneWidth + rx * zoneWidth) / zoneWidth
      = (zi : ℚ) + rx := by
    field_simp
    ring
  rw [hdiv]
  rw [Int.floor_eq_iff]
  constructor
  · push_cast
    linarith
  · push_cast
    linarith

/-- One spawn-loop iteration: the target zone's count grows by one exactly
when it was under the cap; every other zone's count is untouched. -/
theorem countMobsInZone_step (z : Int) (ms : List Mob) (zi : Nat)
    (hzi : zi < 7) (rx ry : ℚ)
    (hrx0 : 0 ≤ rx) (hrx1 : rx < 1) (hry0 : 0 ≤ ry) (hry1 : ry < 1)
    (id : String) :
    countMobsInZone z (spawnPassStep ms zi rx ry id)
      = if (zi : Int) = z ∧ countMobsInZone zi ms < maxMobsPerZone
        then countMobsInZone z ms + 1
        else countMobsInZone z ms := by
  have hmz := (spawnMob_in_zone zi hzi rx ry hrx0 hrx1 hry0 hry1 id).2.1
  by_cases hlt : countMobsInZone zi ms < maxMobsPerZone
  · rw [spawnPassStep, if_pos hlt, countMobsInZone_append, hmz]
    by_cases hz : (zi : Int) = z
    · subst hz
      simp [hlt]
    · simp [hz]
  · rw [spawnPassStep, if_neg hlt]
    simp [hlt]

/-- The spawn loop preserves the per-zone cap. -/
theorem spawnPassAux_cap (rnd : Nat → ℚ × ℚ) (ids : Nat → String)
    (hr : ∀ i : Nat, 0 ≤ (rnd i).1 ∧ (rnd i).1 < 1
        ∧ 0 ≤ (rnd i).2 ∧ (rnd i).2 < 1) :
    ∀ (zs : List Nat), (∀ zi ∈ zs, zi < 7) →
      ∀ (ms : List Mob), (∀ z : Int, countMobsInZone z ms ≤ maxMobsPerZone) →
        ∀ z : Int, countMobsInZone z (spawnPassAux rnd ids zs ms)
          ≤ maxMobsPerZone := by
  intro zs
  induction zs with
  | nil => intro _ ms hcap z; exact hcap z
  | cons zi rest ih =>
    intro hz ms hcap z
    have hzi : zi < 7 := hz zi (by simp)
    have hrest : ∀ a ∈ rest, a < 7 := fun a ha => hz a (by simp [ha])
    obtain ⟨h1, h2, h3, h4⟩ := hr zi
    refine ih hrest (spawnPassStep ms zi (rnd zi).1 (rnd zi).2 (ids zi)) ?_ z
    intro z2
    rw [countMobsInZone_step z2 ms zi hzi _ _ h1 h2 h3 h4 (ids zi)]
    by_cases hc : (zi : Int) = z2 ∧ countMobsInZone zi ms < maxMobsPerZone
    · obtain ⟨hzz, hlt⟩ := hc
      rw [if_pos ⟨hzz, hlt⟩, ← hzz]
      omega
    · rw [if_neg hc]
      exact hcap z2

/-- The spawn loop adds at most one mob per occurrence of a zone in the
iteration list. -/
theorem spawnPassAux_count_le (rnd : Nat → ℚ × ℚ) (ids : Nat → String)
    (hr : ∀ i : Nat, 0 ≤ (rnd i).1 ∧ (rnd i).1 < 1
        ∧ 0 ≤ (rnd i).2 ∧ (rnd i).2 < 1) :
    ∀ (zs : List Nat), (∀ zi ∈ zs, zi < 7) →
      ∀ (ms : List Mob) (z : Int),
        countMobsInZone z (spawnPassAux rnd ids zs ms)
          ≤ countMobsInZone z ms
            + (zs.filter (fun zj : Nat => decide ((zj : Int) = z))).length := by
  intro zs
  induction zs with
  | nil => intro _ ms z; simp [spawnPassAux]
  | cons zi rest ih =>
    intro hz ms z
    have hzi : zi < 7 := hz zi (by simp)
    have hrest : ∀ a ∈ rest, a < 7 := fun a ha => hz a (by simp [ha])
    obtain ⟨h1, h2, h3, h4⟩ := hr zi
    have hstep := countMobsInZone_step z ms zi hzi _ _ h1 h2 h3 h4 (ids zi)
    have hih := ih hrest (spawnPassStep ms zi (rnd zi).1 (rnd zi).2 (ids zi)) z
    have haux : spawnPassAux rnd ids (zi :: rest) ms
        = spawnPassAux rnd ids rest
            (spawnPassStep ms zi (rnd zi).1 (rnd zi).2 (ids zi)) := rfl
    rw [haux]
    rw [hstep] at hih
    by_cases hc : (zi : Int) = z
    · have hflen : ((zi :: rest).filter
          (fun zj : Nat => decide ((zj : Int) = z))).length
          = (rest.filter (fun zj : Nat => decide ((zj : Int) = z))).length + 1 := by
        simp [List.filter_cons, hc]
      rw [hflen]
      by_cases hlt : countMobsInZone zi ms < maxMobsPerZone
      · rw [if_pos ⟨hc, hlt⟩] at hih
        omega
      · rw [if_neg (fun hcc => hlt hcc.2)] at hih
        omega
    · have hflen : ((zi :: rest).filter
          (fun zj : Nat => decide ((zj : Int) = z))).length
          = (rest.filter (fun zj : Nat => decide ((zj : Int) = z))).length := by
        simp [List.filter_cons, hc]
      rw [hflen]
      rw [if_neg (fun hcc => hc hcc.1)] at hih
      omega

/-- The spawn loop never touches a zone already at (or beyond) its cap. -/
theorem spawnPassAux_full (rnd : Nat → ℚ × ℚ) (ids : Nat → String)
    (hr : ∀ i : Nat, 0 ≤ (rnd i).1 ∧ (rnd i).1 < 1
        ∧ 0 ≤ (rnd i).2 ∧ (rnd i).2 < 1) :
    ∀ (zs : List Nat), (∀ zi ∈ zs, zi < 7) →
      ∀ (ms : List Mob) (z : Int),
        maxMobsPerZone ≤ countMobsInZone z ms →
        countMobsInZone z (spawnPassAux rnd ids zs ms)
          = countMobsInZone z ms := by
  intro zs
  induction zs with
  | nil => intro _ ms z _; rfl
  | cons zi rest ih =>
    intro hz ms z hfull
    have hzi : zi < 7 := hz zi (by simp)
    have hrest : ∀ a ∈ rest, a < 7 := fun a ha => hz a (by simp [ha])
    obtain ⟨h1, h2, h3, h4⟩ := hr zi
    have hstep := countMobsInZone_step z ms zi hzi _ _ h1 h2 h3 h4 (ids zi)
    have hne : ¬ ((zi : Int) = z ∧ countMobsInZone zi ms < maxMobsPerZone) := by
      rintro ⟨hzz, hlt⟩
      rw [hzz] at hlt
      omega
    rw [if_neg hne] at hstep
    have := ih hrest (spawnPassStep ms zi (rnd zi).1 (rnd zi).2 (ids zi)) z
      (by rw [hstep]; exact hfull)
    simpa [spawnPassAux, hstep] using this

/-- Every mob present after the spawn loop was already present or was
spawned by one of the loop's zone iterations. -/
theorem spawnPassAux_mem (rnd : Nat → ℚ × ℚ) (ids : Nat → String) :
    ∀ (zs : List Nat) (ms : List Mob) (m : Mob),
      m ∈ spawnPassAux rnd ids zs ms →
      m ∈ ms ∨ ∃ zi ∈ zs,
        m = spawnMob (zi * zoneWidth + (rnd zi).1 * zoneWidth)
              ((rnd zi).2 * worldHeight) (ids zi) := by
  intro zs
  induction zs with
  | nil => intro ms m h; exact Or.inl h
  | cons zi rest ih =>
    intro ms m h
    rcases ih (spawnPassStep ms zi (rnd zi).1 (rnd zi).2 (ids zi)) m h with
      hmem | ⟨zj, hzj, heq⟩
    · rw [spawnPassStep] at hmem
      by_cases hlt : countMobsInZone zi ms < maxMobsPerZone
      · rw [if_pos hlt] at hmem
        rcases List.mem_append.mp hmem with hold | hnew
        · exact Or.inl hold
        · right
          refine ⟨zi, by simp, ?_⟩
          simpa using hnew
      · rw [if_neg hlt] at hmem
        exact Or.inl hmem
    · exact Or.inr ⟨zj, by simp [hzj], heq⟩

/-- In a duplicate-free index list each zone occurs at most once. -/
theorem filter_nodup_length_le {p : Nat → Bool} (l : List Nat)
    (hnd : l.Nodup) (huniq : ∀ a b, p a = true → p b = true → a = b) :
    (l.filter p).length ≤ 1 := by
  have hnd2 : (l.filter p).Nodup := hnd.filter p
  cases hfl : l.filter p with
  | nil => simp
  | cons a rest =>
    cases rest with
    | nil => simp
    | cons b rest2 =>
      exfalso
      have ha : a ∈ l.filter p := by rw [hfl]; simp
      have hb : b ∈ l.filter p := by rw [hfl]; simp
      have hpa := (List.mem_filter.mp ha).2
      have hpb := (List.mem_filter.mp hb).2
      have hab := huniq a b hpa hpb
      rw [hfl] at hnd2
      subst hab
      simp at hnd2

/-- C7: one spawn pass spawns at most one mob per rarity zone, spawns only
into zones strictly under the cap (a full zone's count is unchanged), keeps
every zone at or under the cap whenever it started that way, and places
every newly spawned mob inside its zone's horizontal band and the map's
height. -/
theorem C7_spawn_pass_caps (ms : List Mob) (rnd : Nat → ℚ × ℚ)
    (ids : Nat → String)
    (hr : ∀ i : Nat, 0 ≤ (rnd i).1 ∧ (rnd i).1 < 1
        ∧ 0 ≤ (rnd i).2 ∧ (rnd i).2 < 1)
    (hcap : ∀ z : Int, countMobsInZone z ms ≤ maxMobsPerZone) :
    (∀ z : Int, countMobsInZone z (spawnPass ms rnd ids) ≤ maxMobsPerZone)
    ∧ (∀ z : Int, countMobsInZone z (spawnPass ms rnd ids)
        ≤ countMobsInZone z ms + 1)
    ∧ (∀ z : Int, maxMobsPerZone ≤ countMobsInZone z ms →
        countMobsInZone z (spawnPass ms rnd ids) = countMobsInZone z ms)
    ∧ (∀ m ∈ spawnPass ms rnd ids, m ∉ ms →
        ∃ zi : Nat, zi < 7 ∧ mobZone m = (zi : Int)
          ∧ (zi : ℚ) * zoneWidth ≤ m.x ∧ m.x < ((zi : ℚ) + 1) * zoneWidth
          ∧ 0 ≤ m.y ∧ m.y ≤ worldHeight) := by
  have hzs : ∀ zi ∈ List.range 7, zi < 7 := fun zi h => List.mem_range.mp h
  refine ⟨?_, ?_, ?_, ?_⟩
  · intro z
    exact spawnPassAux_cap rnd ids hr (List.range 7) hzs ms hcap z
  · intro z
    have h := spawnPassAux_count_le rnd ids hr (List.range 7) hzs ms z
    have hone : ((List.range 7).filter (fun zi : Nat => decide ((zi : Int) = z))).length ≤ 1 := by
      refine filter_nodup_length_le (List.range 7) (List.nodup_range 7) ?_
      intro a b hpa hpb
      have ha : (a : Int) = z := by simpa using hpa
      have hb : (b : Int) = z := by simpa using hpb
      omega
    calc countMobsInZone z (spawnPass ms rnd ids)
        ≤ countMobsInZone z ms
            + ((List.range 7).filter (fun zi : Nat => decide ((zi : Int) = z))).length := h
      _ ≤ countMobsInZone z ms + 1 := by omega
  · intro z hfull
    exact spawnPassAux_full rnd ids hr (List.range 7) hzs ms z hfull
  · intro m hmem hnew
    rcases spawnPassAux_mem rnd ids (List.range 7) ms m hmem with hold | ⟨zi, hzi7, heq⟩
    · exact absurd hold hnew
    · have hzi : zi < 7 := List.mem_range.mp hzi7
      obtain ⟨h1, h2, h3, h4⟩ := hr zi
      obtain ⟨hx, hz, hy, hy0, hyh⟩ :=
        spawnMob_in_zone zi hzi (rnd zi).1 (rnd zi).2 h1 h2 h3 h4 (ids zi)
      refine ⟨zi, hzi, ?_, ?_, ?_, ?_, ?_⟩
      · rw [heq]; exact hz
      · rw [heq, hx]
        have hw := zoneWidth_pos
        nlinarith
      · rw [heq, hx]
        have hw := zoneWidth_pos
        nlinarith
      · rw [heq, hy]; exact hy0
      · rw [heq, hy]; exact hyh

/-- Witness for C7: one spawn pass from an empty store with zero random
draws keeps zone 0 at or under its cap. -/
theorem C7_spawn_pass_caps_witness :
    countMobsInZone 0 (spawnPass [] (fun _ => (0, 0)) (fun _ => "m"))
      ≤ maxMobsPerZone :=
  (C7_spawn_pass_caps [] (fun _ => (0, 0)) (fun _ => "m")
    (fun _ => ⟨le_refl 0, by norm_num, le_refl 0, by norm_num⟩)
    (fun z => by simp [countMobsInZone])).1 0
